import Mathlib

/-!
Verification development for the `web3_wallet` repository.

The definitions below are a shallow embedding of the two core source files:

* `src/services/ultimateBalanceChecker.js` — provider registry, circuit
  breaker, health-based provider selection, response parsing, response cache
  and the retry queue (`UltimateBalanceChecker`);
* `src/services/supabaseClient.js` — the distributed range coordinator
  (`getNextWorkRange` / `completeWorkRange`) over the `work_ranges` table.

JavaScript numbers are modelled as `ℚ` (and plain counters as `ℕ`),
timestamps as `ℕ` milliseconds, JS `Map`s as association lists, and a JS
exception inside a `try` block as an `Option` that is `none` (the enclosing
`catch` corresponds to `Option.getD`).
-/

namespace Web3Wallet

/-! ## Circuit breaker (`ultimateBalanceChecker.js`, `initializeAPIStats` /
`updateCircuitBreaker` / `updateCircuitBreakers`) -/

/-- The three circuit states `'CLOSED' | 'OPEN' | 'HALF_OPEN'`.  `open` is a
Lean keyword, so the `'OPEN'` state is called `opened`. -/
inductive CircuitState where
  | closed
  | opened
  | halfOpen
deriving DecidableEq, Repr

/-- One entry of `this.circuitBreaker` (`initializeAPIStats`, lines 167-172). -/
structure CircuitBreaker where
  state : CircuitState
  failures : ℕ
  lastFailureTime : ℕ
  timeout : ℕ
deriving DecidableEq, Repr

/-- `updateCircuitBreaker(apiName, success)` (lines 457-473), acting on the
named provider's breaker record. -/
def updateCircuitBreaker (success : Bool) (now : ℕ) (c : CircuitBreaker) :
    CircuitBreaker :=
  if success then
    { c with
      failures := 0
      state := if c.state = .halfOpen then .closed else c.state }
  else
    let c' := { c with failures := c.failures + 1, lastFailureTime := now }
    if c'.failures ≥ 5 then { c' with state := .opened } else c'

/-- The per-provider body of `updateCircuitBreakers()` (lines 286-297): an
`OPEN` breaker whose timeout has elapsed becomes `HALF_OPEN` with the failure
counter cleared. -/
def updateCircuitBreakersStep (now : ℕ) (c : CircuitBreaker) : CircuitBreaker :=
  if c.state = .opened ∧ now - c.lastFailureTime > c.timeout then
    { c with state := .halfOpen, failures := 0 }
  else c

/-! ## Provider statistics (`initializeAPIStats`, lines 147-166) -/

/-- One entry of `this.apiStats`. -/
structure APIStats where
  totalRequests : ℕ
  successfulRequests : ℕ
  failedRequests : ℕ
  averageResponseTime : ℚ
  lastRequestTime : ℕ
  isActive : Bool
  errorCount : ℕ
  lastError : Option String
  consecutiveFailures : ℕ
  successStreak : ℕ
  hourlyRequests : ℕ
  dailyRequests : ℕ
  lastHourReset : ℕ
  lastDayReset : ℕ
deriving DecidableEq, Repr

/-- The all-zero, active statistics record created by `initializeAPIStats`. -/
def initialStats : APIStats where
  totalRequests := 0
  successfulRequests := 0
  failedRequests := 0
  averageResponseTime := 0
  lastRequestTime := 0
  isActive := true
  errorCount := 0
  lastError := none
  consecutiveFailures := 0
  successStreak := 0
  hourlyRequests := 0
  dailyRequests := 0
  lastHourReset := 0
  lastDayReset := 0

/-! ## Provider registry (`this.bitcoinAPIs`, lines 7-117) -/

/-- One provider descriptor of the static registry. -/
structure BitcoinAPI where
  name : String
  url : String
  rateLimit : ℚ
  priority : ℕ
  endpoint : String
  parser : String
deriving DecidableEq, Repr

def blockstreamAPI : BitcoinAPI where
  name := "Blockstream"
  url := "https://blockstream.info/api"
  rateLimit := 50
  priority := 1
  endpoint := "/address/{address}"
  parser := "blockstream"

def blockcypherAPI : BitcoinAPI where
  name := "BlockCypher"
  url := "https://api.blockcypher.com/v1/btc/main"
  rateLimit := 200
  priority := 2
  endpoint := "/addrs/{address}/balance"
  parser := "blockcypher"

def blockchainInfoAPI : BitcoinAPI where
  name := "Blockchain.info"
  url := "https://blockchain.info"
  rateLimit := 10
  priority := 3
  endpoint := "/q/addressbalance/{address}"
  parser := "blockchain_info"

def blockchairAPI : BitcoinAPI where
  name := "Blockchair"
  url := "https://api.blockchair.com/bitcoin"
  rateLimit := 30
  priority := 4
  endpoint := "/dashboards/address/{address}"
  parser := "blockchair"

def bitgoAPI : BitcoinAPI where
  name := "BitGo"
  url := "https://www.bitgo.com/api/v1"
  rateLimit := 60
  priority := 5
  endpoint := "/address/{address}"
  parser := "bitgo"

def insightAPI : BitcoinAPI where
  name := "Insight"
  url := "https://insight.bitpay.com/api"
  rateLimit := 40
  priority := 6
  endpoint := "/addr/{address}"
  parser := "insight"

def sochainAPI : BitcoinAPI where
  name := "SoChain"
  url := "https://sochain.com/api/v2"
  rateLimit := 300
  priority := 7
  endpoint := "/get_address_balance/BTC/{address}"
  parser := "sochain"

def mempoolAPI : BitcoinAPI where
  name := "Mempool.space"
  url := "https://mempool.space/api"
  rateLimit := 60
  priority := 8
  endpoint := "/address/{address}"
  parser := "mempool"

def btcexplorerAPI : BitcoinAPI where
  name := "BTCExplorer"
  url := "https://blockexplorer.com/api"
  rateLimit := 30
  priority := 9
  endpoint := "/addr/{address}"
  parser := "btcexplorer"

def cryptoidAPI : BitcoinAPI where
  name := "CryptoID"
  url := "https://chainz.cryptoid.info/btc/api.dws"
  rateLimit := 100
  priority := 10
  endpoint := "?q=getbalance&a={address}"
  parser := "cryptoid"

def smartbitAPI : BitcoinAPI where
  name := "SmartBit"
  url := "https://api.smartbit.com.au/v1/blockchain"
  rateLimit := 50
  priority := 11
  endpoint := "/address/{address}"
  parser := "smartbit"

def bitcoreAPI : BitcoinAPI where
  name := "BitCore"
  url := "https://api.bitcore.io/api/BTC/mainnet"
  rateLimit := 80
  priority := 12
  endpoint := "/address/{address}"
  parser := "bitcore"

/-- The static 12-provider registry `this.bitcoinAPIs`. -/
def bitcoinAPIs : List BitcoinAPI :=
  [blockstreamAPI, blockcypherAPI, blockchainInfoAPI, blockchairAPI, bitgoAPI,
   insightAPI, sochainAPI, mempoolAPI, btcexplorerAPI, cryptoidAPI,
   smartbitAPI, bitcoreAPI]

/-! ## Checker state and provider selection (`selectBestAPI`, lines 204-259) -/

/-- The mutable per-provider maps of `UltimateBalanceChecker`, keyed by
provider name, together with the `adaptiveRateLimit` flag. -/
structure CheckerState where
  apiStats : String → APIStats
  apiHealthScore : String → ℚ
  circuitBreaker : String → CircuitBreaker
  adaptiveRateLimit : Bool

/-- `calculateDynamicRateLimit(api, stats)` (lines 262-283). -/
def calculateDynamicRateLimit (api : BitcoinAPI) (stats : APIStats) : ℚ :=
  let afterSuccessRate :=
    if stats.totalRequests > 10 then
      let successRate : ℚ := (stats.successfulRequests : ℚ) / (stats.totalRequests : ℚ)
      if successRate > 95/100 then api.rateLimit * (15/10)
      else if successRate < 8/10 then api.rateLimit * (5/10)
      else api.rateLimit
    else api.rateLimit
  let afterLatency :=
    if stats.averageResponseTime > 3000 then afterSuccessRate * (7/10)
    else if stats.averageResponseTime < 500 then afterSuccessRate * (12/10)
    else afterSuccessRate
  max 1 (min afterLatency (api.rateLimit * 2))

/-- The availability filter of `selectBestAPI` (lines 206-223): inactive or
`OPEN`-breaker providers are rejected, then a health-score floor of 30, then
the adaptive rate-limit throttle. -/
def apiAvailable (st : CheckerState) (now : ℕ) (api : BitcoinAPI) : Bool :=
  let stats := st.apiStats api.name
  let circuit := st.circuitBreaker api.name
  let healthScore := st.apiHealthScore api.name
  if ¬ stats.isActive ∨ circuit.state = .opened then false
  else if healthScore < 30 then false
  else if st.adaptiveRateLimit then
    let timeSinceLastRequest : ℚ := (now : ℚ) - (stats.lastRequestTime : ℚ)
    let dynamicRateLimit := calculateDynamicRateLimit api stats
    decide (¬ timeSinceLastRequest < 1000 / dynamicRateLimit)
  else true

/-- The weighted score of the final ranking of `selectBestAPI`
(lines 249-255): health 40%, success streak (doubled) 30%, priority 30%. -/
def apiScore (st : CheckerState) (a : BitcoinAPI) : ℚ :=
  let health := st.apiHealthScore a.name
  let stats := st.apiStats a.name
  health * (4/10) + ((stats.successStreak : ℚ) * 2) * (3/10) +
    (if a.priority = 1 then 30 else (1 / (a.priority : ℚ)) * 20) * (3/10)

/-- `availableAPIs.sort((a, b) => bScore - aScore)[0]`: the first element of
the stable descending sort by score, i.e. the earliest element attaining the
maximal score. -/
def selectTop (st : CheckerState) : List BitcoinAPI → Option BitcoinAPI
  | [] => none
  | a :: rest =>
      some (rest.foldl (fun best b => if apiScore st best < apiScore st b then b else best) a)

/-- `resetAllAPIs()` (lines 569-581): reactivates every provider, clears its
consecutive-failure and error counters, and closes every breaker. -/
def resetAllAPIs (st : CheckerState) : CheckerState :=
  { st with
    apiStats := fun n =>
      let s := st.apiStats n
      { s with isActive := true, consecutiveFailures := 0, errorCount := 0 }
    circuitBreaker := fun n =>
      let c := st.circuitBreaker n
      { c with state := .closed, failures := 0 } }

/-- `selectBestAPI()` (lines 204-259), parameterised by the registry the
instance field `this.bitcoinAPIs` holds.  Returns the chosen provider (if
any) and the possibly mutated state (the last-resort branch calls
`resetAllAPIs`). -/
def selectBestAPIWith (registry : List BitcoinAPI) (st : CheckerState) (now : ℕ) :
    Option BitcoinAPI × CheckerState :=
  let availableAPIs := registry.filter (apiAvailable st now)
  if availableAPIs.isEmpty then
    let emergencyAPIs := registry.filter (fun api => (st.apiStats api.name).isActive)
    match emergencyAPIs with
    | e :: _ => (some e, st)
    | [] => (registry.head?, resetAllAPIs st)
  else
    (selectTop st availableAPIs, st)

/-- `selectBestAPI()` on the concrete registry. -/
def selectBestAPI (st : CheckerState) (now : ℕ) : Option BitcoinAPI × CheckerState :=
  selectBestAPIWith bitcoinAPIs st now

/-! ## Response parsing (`parseAPIResponse`, lines 299-403)

The raw body handed to the parser is a JSON value.  A JavaScript exception
inside the `try` block (property access on `undefined`, and by convention of
this embedding every other failed field extraction, including the
`undefined`/`NaN` arithmetic a missing leaf produces) is modelled as `none`;
the surrounding `catch` keeps the initial zero balance, which is the
`Option.getD` at the end. -/

inductive Json where
  | null
  | bool (b : Bool)
  | num (q : ℚ)
  | str (s : String)
  | arr (elems : List Json)
  | obj (fields : List (String × Json))

/-- First-match field lookup in a JSON object literal. -/
def lookupField : List (String × Json) → String → Option Json
  | [], _ => none
  | (k, v) :: rest, key => if k = key then some v else lookupField rest key

/-- `j.key` on an object; `none` on every other shape. -/
def Json.get? : Json → String → Option Json
  | .obj fields, key => lookupField fields key
  | _, _ => none

/-- Numeric payload of a JSON value. -/
def Json.num? : Json → Option ℚ
  | .num q => some q
  | _ => none

/-- JavaScript truthiness of a possibly-absent value. -/
def jsTruthy : Option Json → Bool
  | none => false
  | some .null => false
  | some (.bool b) => b
  | some (.num q) => decide (q ≠ 0)
  | some (.str s) => decide (s ≠ "")
  | some (.arr _) => true
  | some (.obj _) => true

/-- A required numeric field: `none` models the throwing/`NaN` outcome. -/
def getNum (j : Json) (key : String) : Option ℚ :=
  (j.get? key).bind Json.num?

/-- `(j.key || 0)`: a missing or non-numeric field defaults to `0`. -/
def getNumD (j : Json) (key : String) : ℚ :=
  (getNum j key).getD 0

/-- Truncation toward zero, the integer part `parseInt` keeps of a number. -/
def ratTrunc (q : ℚ) : ℤ :=
  if 0 ≤ q then ⌊q⌋ else -⌊-q⌋

/-- `(parseInt(data) || 0)` (the `blockchain_info` parser): a number is
truncated toward zero, a decimal string is read, everything else (the `NaN`
cases) defaults to `0`. -/
def jsParseIntD : Json → ℤ
  | .num q => ratTrunc q
  | .str s => (s.toInt?).getD 0
  | _ => 0

/-- A decimal literal such as `"0.005"`, as a rational. -/
def parseDecimal (s : String) : Option ℚ :=
  match s.split (· = '.') with
  | [whole] => (whole.toInt?).map (fun i => (i : ℚ))
  | [whole, frac] => do
      let i ← whole.toInt?
      let f ← frac.toNat?
      let fq : ℚ := (f : ℚ) / ((10 : ℚ) ^ frac.length)
      pure (if i < 0 then (i : ℚ) - fq else (i : ℚ) + fq)
  | _ => none

/-- `parseFloat` of a field that may be absent; `none` models `NaN`. -/
def jsParseFloat? : Option Json → Option ℚ
  | some (.num q) => some q
  | some (.str s) => parseDecimal s
  | _ => none

/-- `(parseFloat(data) || 0)` (the `cryptoid` parser). -/
def jsParseFloatD : Json → ℚ
  | .num q => q
  | .str s => (parseDecimal s).getD 0
  | _ => 0

/-- The local `balance = { confirmed, unconfirmed, total }` record built by
the `try` block of `parseAPIResponse`. -/
structure RawBalance where
  confirmed : ℚ
  unconfirmed : ℚ
  total : ℚ
deriving DecidableEq, Repr

/-- The `'blockstream'` and `'mempool'` cases (lines 305-312, 346-353). -/
def parseBlockstreamLike (data : Json) : Option RawBalance := do
  let chainStats ← data.get? "chain_stats"
  let mempoolStats ← data.get? "mempool_stats"
  let funded ← getNum chainStats "funded_txo_sum"
  let spent ← getNum chainStats "spent_txo_sum"
  let mFunded ← getNum mempoolStats "funded_txo_sum"
  let mSpent ← getNum mempoolStats "spent_txo_sum"
  pure ⟨funded - spent, mFunded - mSpent, (funded - spent) + (mFunded - mSpent)⟩

/-- The `'insight'` / `'btcexplorer'` case (lines 355-362): BTC-denominated
fields scaled to satoshis with `Math.round`. -/
def parseInsightLike (data : Json) : Option RawBalance :=
  some ⟨((round (getNumD data "balance" * 100000000) : ℤ) : ℚ),
        ((round (getNumD data "unconfirmedBalance" * 100000000) : ℤ) : ℚ),
        ((round ((getNumD data "balance" + getNumD data "unconfirmedBalance") * 100000000) : ℤ) : ℚ)⟩

/-- The `try` block of `parseAPIResponse` (lines 303-393), one case per
parser identifier; `none` is the caught-exception outcome and the unknown
parser of the `default` case (both leave the initial zero balance). -/
def tryParse (parser : String) (data : Json) (address : String) : Option RawBalance :=
  match parser with
  | "blockstream" => parseBlockstreamLike data
  | "blockcypher" =>
      some ⟨getNumD data "balance", getNumD data "unconfirmed_balance",
            getNumD data "balance" + getNumD data "unconfirmed_balance"⟩
  | "blockchain_info" =>
      let totalSatoshis : ℚ := (jsParseIntD data : ℚ)
      some ⟨totalSatoshis, 0, totalSatoshis⟩
  | "blockchair" => do
      let inner ← data.get? "data"
      match inner.get? address with
      | some addrData =>
          if jsTruthy (some addrData) then do
            let addrObj ← addrData.get? "address"
            pure ⟨getNumD addrObj "balance", getNumD addrObj "unconfirmed_balance",
                  getNumD addrObj "balance" + getNumD addrObj "unconfirmed_balance"⟩
          else pure ⟨0, 0, 0⟩
      | none => pure ⟨0, 0, 0⟩
  | "sochain" =>
      match data.get? "status" with
      | some (.str statusStr) =>
          if statusStr = "success" then do
            let inner ← data.get? "data"
            let balanceQ ← jsParseFloat? (inner.get? "confirmed_balance")
            let satoshis : ℚ := ((round (balanceQ * 100000000) : ℤ) : ℚ)
            pure ⟨satoshis, 0, satoshis⟩
          else some ⟨0, 0, 0⟩
      | _ => some ⟨0, 0, 0⟩
  | "mempool" => parseBlockstreamLike data
  | "insight" => parseInsightLike data
  | "btcexplorer" => parseInsightLike data
  | "cryptoid" =>
      let satoshis : ℚ := ((round (jsParseFloatD data * 100000000) : ℤ) : ℚ)
      some ⟨satoshis, 0, satoshis⟩
  | "smartbit" =>
      if jsTruthy (data.get? "success") ∧ jsTruthy (data.get? "address") then do
        let addrObj ← data.get? "address"
        let confirmedObj ← addrObj.get? "confirmed"
        let unconfirmedObj ← addrObj.get? "unconfirmed"
        pure ⟨getNumD confirmedObj "balance_int", getNumD unconfirmedObj "balance_int",
              getNumD confirmedObj "balance_int" + getNumD unconfirmedObj "balance_int"⟩
      else some ⟨0, 0, 0⟩
  | "bitcore" =>
      some ⟨getNumD data "balance", getNumD data "unconfirmedBalance",
            getNumD data "balance" + getNumD data "unconfirmedBalance"⟩
  | _ => none

/-- The canonical result shape returned by `parseAPIResponse`
(lines 395-402). -/
structure ParsedBalance where
  address : String
  confirmed : ℚ
  unconfirmed : ℚ
  total : ℚ
  balanceInBTC : ℚ
  hasBalance : Bool
  type : String
  source : String
deriving DecidableEq, Repr

/-- `parseAPIResponse(data, parser, address)` (lines 299-403): run the
parser's case under `try`, fall back to the initial zero balance on any
failure, and wrap in the canonical shape. -/
def parseAPIResponse (data : Json) (parser : String) (address : String) :
    ParsedBalance :=
  let balance := (tryParse parser data address).getD ⟨0, 0, 0⟩
  { address := address
    confirmed := balance.confirmed
    unconfirmed := balance.unconfirmed
    total := balance.total
    balanceInBTC := balance.total / 100000000
    hasBalance := decide (balance.total > 0)
    type := "bitcoin"
    source := parser }

/-! ## Response cache (`executeBalanceCheck` lines 405-454,
`cleanExpiredCache` lines 599-606) -/

/-- `this.cacheExpiry = 10 * 60 * 1000`. -/
def cacheExpiry : ℕ := 10 * 60 * 1000

/-- `this.negativeCacheExpiry = 2 * 60 * 1000`. -/
def negativeCacheExpiry : ℕ := 2 * 60 * 1000

/-- One value of `this.cache` (line 441): the parsed result and the write
timestamp — no per-entry TTL is stored. -/
structure CacheEntry where
  data : ParsedBalance
  timestamp : ℕ
deriving DecidableEq, Repr

/-- `Map.get`, first-match in the association-list model. -/
def mapGet (cache : List (String × CacheEntry)) (key : String) : Option CacheEntry :=
  match cache with
  | [] => none
  | (k, v) :: rest => if k = key then some v else mapGet rest key

/-- `Map.set`: replace any binding of `key`. -/
def mapSet (cache : List (String × CacheEntry)) (key : String) (v : CacheEntry) :
    List (String × CacheEntry) :=
  (key, v) :: cache.filter (fun e => ¬ e.1 = key)

/-- The cache read of `executeBalanceCheck` (lines 409-412): a hit needs a
stored entry younger than `cacheExpiry` — the same 10-minute bound for every
entry, whether or not it has a balance. -/
def cacheLookup (cache : List (String × CacheEntry)) (key : String) (now : ℕ) :
    Option ParsedBalance :=
  match mapGet cache key with
  | some cached => if now - cached.timestamp < cacheExpiry then some cached.data else none
  | none => none

/-- The whole cache-check step of `executeBalanceCheck` (lines 407-412) as a
state transformer: it only reads — an expired entry is passed over but never
deleted. -/
def executeCacheCheck (cache : List (String × CacheEntry)) (key : String) (now : ℕ) :
    Option ParsedBalance × List (String × CacheEntry) :=
  (cacheLookup cache key now, cache)

/-- The TTL `executeBalanceCheck` computes on line 440
(`result.hasBalance ? this.cacheExpiry : this.negativeCacheExpiry`).  The
source drops this value: the entry stored on lines 441-444 carries only the
result and the timestamp. -/
def chooseCacheExpiry (result : ParsedBalance) : ℕ :=
  if result.hasBalance then cacheExpiry else negativeCacheExpiry

/-- The cache write of `executeBalanceCheck` (lines 441-444). -/
def cacheStore (cache : List (String × CacheEntry)) (key : String)
    (result : ParsedBalance) (now : ℕ) : List (String × CacheEntry) :=
  mapSet cache key ⟨result, now⟩

/-- `cleanExpiredCache()` (lines 599-606): the periodic sweep deletes every
entry with `now - timestamp > cacheExpiry`. -/
def cleanExpiredCache (now : ℕ) (cache : List (String × CacheEntry)) :
    List (String × CacheEntry) :=
  cache.filter (fun e => ¬ now - e.2.timestamp > cacheExpiry)

/-! ## Retry queue (`processRequest` lines 524-540, `checkBalance`
lines 543-553) -/

/-- `this.retryAttempts = 5` (line 124). -/
def retryAttempts : ℕ := 5

/-- `this.baseDelay = 50` (line 125). -/
def baseDelay : ℕ := 50

/-- A queued request as built by `checkBalance` (without the promise
handles, whose settlement is the `ProcessOutcome` below). -/
structure QueuedRequest where
  address : String
  retries : ℕ
  timestamp : ℕ
deriving DecidableEq, Repr

/-- How one `processRequest` call settles: resolve the caller's promise,
re-insert the bumped request at the queue front after a delay, or reject the
promise. -/
inductive ProcessOutcome where
  | resolved (result : ParsedBalance)
  | requeuedFront (request : QueuedRequest) (delay : ℕ)
  | rejected (error : String)
deriving DecidableEq, Repr

/-- `processRequest(request)` (lines 524-540) against an executor standing
for `executeBalanceCheck`: on failure, a request with remaining retries is
re-queued at the front with delay `baseDelay * 2 ** retries` (the
incremented counter), otherwise the caller's promise is rejected. -/
def processRequest (exec : String → Except String ParsedBalance)
    (retryBudget : ℕ) (request : QueuedRequest) : ProcessOutcome :=
  match exec request.address with
  | .ok result => .resolved result
  | .error e =>
      if request.retries < retryBudget then
        .requeuedFront { request with retries := request.retries + 1 }
          (baseDelay * 2 ^ (request.retries + 1))
      else .rejected e

/-- The executor of a provider set that fails every call. -/
def failingExec : String → Except String ParsedBalance :=
  fun _ => .error "network error"

/-- The effect of a `ProcessOutcome` on the queue: `this.queue.unshift`
re-inserts a retried request at the front (line 534). -/
def applyOutcome (queue : List QueuedRequest) : ProcessOutcome → List QueuedRequest
  | .requeuedFront r _ => r :: queue
  | _ => queue

/-- Repeated processing of one request when every call fails: the number of
execution attempts made before the promise is rejected, together with the
final outcome. -/
def runFailing (retryBudget : ℕ) (request : QueuedRequest) : ℕ × ProcessOutcome :=
  if h : request.retries < retryBudget then
    ((runFailing retryBudget { request with retries := request.retries + 1 }).1 + 1,
     (runFailing retryBudget { request with retries := request.retries + 1 }).2)
  else
    (1, .rejected "network error")
termination_by retryBudget - request.retries
decreasing_by
  all_goals omega

/-! ## Range coordinator (`supabaseClient.js`, `getNextWorkRange`
lines 327-406, over the `work_ranges` table of
`database/work_ranges_table.sql`)

`getNextWorkRange` issues separate store round trips: first a `SELECT` of
the smallest `available` row (plus, when none exists, a `SELECT` of the
maximal `end_index`), and only then an `UPDATE`/`INSERT`.  The read phase is
`observeNextRange` and the write phase is `commitNextRange`; the sequential
call is their composition.  The `catch` fallback of lines 394-405 (the local
hash-derived offset used when the store is unreachable) is outside the
reachable-store behaviour modelled here. -/

/-- `work_ranges.status`: `'available' | 'assigned' | 'completed'`. -/
inductive RangeStatus where
  | available
  | assigned
  | completed
deriving DecidableEq, Repr

/-- One row of the `work_ranges` table. -/
structure WorkRow where
  id : ℕ
  start_index : ℤ
  end_index : ℤ
  status : RangeStatus
  assigned_to : Option String
deriving DecidableEq, Repr

/-- The coordination store: the `work_ranges` rows and the next serial id. -/
structure StoreState where
  rows : List WorkRow
  nextId : ℕ
deriving DecidableEq, Repr

/-- The `{ start, end }` record `getNextWorkRange` returns (`end` is a Lean
keyword, so that field is `stop`). -/
structure AssignedRange where
  start : ℤ
  stop : ℤ
deriving DecidableEq, Repr

/-- The row of minimal `start_index` in a list (the first one on ties), i.e.
`order('start_index', ascending).limit(1)`. -/
def pickMinStart : List WorkRow → Option WorkRow
  | [] => none
  | r :: rs =>
      some (rs.foldl (fun best b => if b.start_index < best.start_index then b else best) r)

/-- The first `SELECT` of `getNextWorkRange` (lines 330-335): the smallest
`available` row, if any. -/
def selectAvailable (st : StoreState) : Option WorkRow :=
  pickMinStart (st.rows.filter (fun r => decide (r.status = .available)))

/-- The maximal `end_index` of a row list, `0` when it is empty. -/
def maxEndList : List WorkRow → ℤ
  | [] => 0
  | r :: rs => rs.foldl (fun m x => max m x.end_index) r.end_index

/-- The second `SELECT` (lines 362-370): the maximal `end_index` over all
rows, defaulting to `0` on an empty table. -/
def maxEndIndex (st : StoreState) : ℤ :=
  maxEndList st.rows

/-- The per-row effect of the `UPDATE` of lines 350-357. -/
def markRow (rowId : ℕ) (sessionId : String) (r : WorkRow) : WorkRow :=
  if r.id = rowId then { r with status := .assigned, assigned_to := some sessionId }
  else r

/-- The `UPDATE` of lines 350-357: mark the row `assigned` to the session. -/
def markAssigned (st : StoreState) (rowId : ℕ) (sessionId : String) : StoreState :=
  { st with rows := st.rows.map (markRow rowId sessionId) }

/-- The `INSERT` of lines 376-385: append a new `assigned` row. -/
def insertRange (st : StoreState) (s e : ℤ) (sessionId : String) : StoreState :=
  { rows := st.rows ++ [⟨st.nextId, s, e, .assigned, some sessionId⟩]
    nextId := st.nextId + 1 }

/-- What a caller of `getNextWorkRange` has learned after its read round
trips and before its write. -/
inductive RangeObs where
  | avail (row : WorkRow)
  | fresh (lastEnd : ℤ)
deriving DecidableEq, Repr

/-- The read phase of `getNextWorkRange`. -/
def observeNextRange (st : StoreState) : RangeObs :=
  match selectAvailable st with
  | some row => .avail row
  | none => .fresh (maxEndIndex st)

/-- The write phase of `getNextWorkRange`: reuse the observed `available`
row, or insert the contiguous range `start = lastEnd + 1`,
`end = start + batchSize - 1`. -/
def commitNextRange (sessionId : String) (batchSize : ℕ) (o : RangeObs)
    (st : StoreState) : AssignedRange × StoreState :=
  match o with
  | .avail row => (⟨row.start_index, row.end_index⟩, markAssigned st row.id sessionId)
  | .fresh lastEnd =>
      let s := lastEnd + 1
      let e := s + (batchSize : ℤ) - 1
      (⟨s, e⟩, insertRange st s e sessionId)

/-- `getNextWorkRange(sessionId, batchSize)` on a reachable store: the read
phase followed immediately by the write phase. -/
def getNextWorkRange (sessionId : String) (batchSize : ℕ) (st : StoreState) :
    AssignedRange × StoreState :=
  commitNextRange sessionId batchSize (observeNextRange st) st

/-- A sequence of non-interleaved `getNextWorkRange` calls
`(sessionId, batchSize)` and the ranges they return. -/
def runSequential (st : StoreState) : List (String × ℕ) → List AssignedRange × StoreState
  | [] => ([], st)
  | (sessionId, batchSize) :: calls =>
      let step := getNextWorkRange sessionId batchSize st
      let rest := runSequential step.2 calls
      (step.1 :: rest.1, rest.2)

/-- Two inclusive integer intervals share no index. -/
def intervalsDisjoint (s1 e1 s2 e2 : ℤ) : Prop :=
  ∀ i : ℤ, ¬ (s1 ≤ i ∧ i ≤ e1 ∧ s2 ≤ i ∧ i ≤ e2)

/-- Disjointness of two table rows. -/
def rowsDisjoint (w1 w2 : WorkRow) : Prop :=
  intervalsDisjoint w1.start_index w1.end_index w2.start_index w2.end_index

/-- Disjointness of two returned ranges. -/
def rangesDisjoint (r1 r2 : AssignedRange) : Prop :=
  intervalsDisjoint r1.start r1.stop r2.start r2.stop

/-- A well-formed store: pairwise disjoint rows, pairwise distinct ids, and
every id below the serial counter. -/
def StoreInv (st : StoreState) : Prop :=
  st.rows.Pairwise rowsDisjoint ∧
  st.rows.Pairwise (fun a b => a.id ≠ b.id) ∧
  ∀ w ∈ st.rows, w.id < st.nextId

/-- The empty `work_ranges` table. -/
def emptyStore : StoreState := ⟨[], 0⟩

/-! ## Concrete states used by the witnesses and counterexamples -/

/-- A zero-balance canonical result for `addr1`, as returned and cached by
`executeBalanceCheck` for an empty address. -/
def zeroResult1 : ParsedBalance :=
  ⟨"addr1", 0, 0, 0, 0, false, "bitcoin", "blockstream"⟩

/-- A zero-balance canonical result for `addr2`. -/
def zeroResult2 : ParsedBalance :=
  ⟨"addr2", 0, 0, 0, 0, false, "bitcoin", "blockstream"⟩

/-- A checker state in which every provider is active with a closed breaker,
but only Blockstream clears the health floor, and the adaptive rate limiter
is disabled — so the primary filter keeps exactly one provider. -/
def healthyState : CheckerState where
  apiStats := fun _ => initialStats
  apiHealthScore := fun n => if n = "Blockstream" then 100 else 0
  circuitBreaker := fun _ => ⟨.closed, 0, 0, 30000⟩
  adaptiveRateLimit := false

/-- A checker state in which every provider is active but every circuit
breaker is `OPEN` (e.g. after five failures on each provider, before any
breaker timeout elapses). -/
def allOpenState : CheckerState where
  apiStats := fun _ => initialStats
  apiHealthScore := fun _ => 100
  circuitBreaker := fun _ => ⟨.opened, 5, 0, 30000⟩
  adaptiveRateLimit := true

/-- A checker state in which every provider is active with a closed breaker
but a health score below the floor of 30, and the first provider
(Blockstream) carries a large error count while the others have none. -/
def lowHealthState : CheckerState where
  apiStats := fun n =>
    if n = "Blockstream" then { initialStats with errorCount := 100 } else initialStats
  apiHealthScore := fun _ => 0
  circuitBreaker := fun _ => ⟨.closed, 0, 0, 30000⟩
  adaptiveRateLimit := true

/-- A checker state in which every provider has been deactivated. -/
def allInactiveState : CheckerState where
  apiStats := fun _ => { initialStats with isActive := false }
  apiHealthScore := fun _ => 100
  circuitBreaker := fun _ => ⟨.closed, 0, 0, 30000⟩
  adaptiveRateLimit := true

/-! ## Helper lemmas -/

/-- A fold that at each step keeps either the accumulator or the next
element produces the initial accumulator or a list element. -/
theorem foldl_choice_mem {α : Type} (g : α → α → α)
    (hg : ∀ a b, g a b = a ∨ g a b = b) :
    ∀ (l : List α) (a : α), l.foldl g a = a ∨ l.foldl g a ∈ l
  | [], _ => Or.inl rfl
  | b :: l, a => by
      rw [List.foldl_cons]
      rcases foldl_choice_mem g hg l (g a b) with h | h
      · rcases hg a b with h2 | h2
        · rw [h, h2]
          exact Or.inl rfl
        · rw [h, h2]
          exact Or.inr (List.mem_cons_self _ _)
      · exact Or.inr (List.mem_cons_of_mem _ h)

/-- The provider returned by the ranking step is one of the ranked
providers. -/
theorem selectTop_mem (st : CheckerState) (l : List BitcoinAPI) (a : BitcoinAPI)
    (h : selectTop st l = some a) : a ∈ l := by
  cases l with
  | nil => simp [selectTop] at h
  | cons b rest =>
      simp only [selectTop, Option.some.injEq] at h
      have hg : ∀ x y : BitcoinAPI,
          (if apiScore st x < apiScore st y then y else x) = x ∨
          (if apiScore st x < apiScore st y then y else x) = y := by
        intro x y
        split
        · exact Or.inr rfl
        · exact Or.inl rfl
      rcases foldl_choice_mem _ hg rest b with h2 | h2
      · rw [← h, h2]
        exact List.mem_cons_self _ _
      · rw [← h]
        exact List.mem_cons_of_mem _ h2

/-- If the availability filter accepts a provider, its breaker is not
`OPEN`. -/
theorem apiAvailable_not_opened (st : CheckerState) (now : ℕ) (api : BitcoinAPI)
    (h : apiAvailable st now api = true) :
    (st.circuitBreaker api.name).state ≠ .opened := by
  intro hop
  simp [apiAvailable, hop] at h

/-! ## C3 — circuit-breaker transitions -/

/-- C3 (counterexample): the claim says a single recorded failure while the
breaker is `HALF_OPEN` returns it to `OPEN`; in the code a failure on a
half-open breaker with a cleared failure counter merely increments the
counter, so the breaker stays `HALF_OPEN`. -/
theorem halfOpen_failure_stays_halfOpen :
    (updateCircuitBreaker false 1000 ⟨.halfOpen, 0, 0, 30000⟩).state = .halfOpen ∧
    CircuitState.halfOpen ≠ .opened := by decide

/-- C3 (amended): five consecutive recorded failures from a clean `CLOSED`
breaker open it; a success while `HALF_OPEN` closes the breaker and clears
the failures; a failure while `HALF_OPEN` stamps the failure time (resetting
the timeout clock) and increments the counter, and moves to `OPEN` exactly
when the incremented counter reaches 5 — not on a single failure. -/
theorem circuitBreaker_transitions :
    (∀ (c : CircuitBreaker) (now : ℕ), c.state = .closed → c.failures = 0 →
      (updateCircuitBreaker false now (updateCircuitBreaker false now
        (updateCircuitBreaker false now (updateCircuitBreaker false now
          (updateCircuitBreaker false now c))))).state = .opened) ∧
    (∀ (c : CircuitBreaker) (now : ℕ), c.state = .halfOpen →
      (updateCircuitBreaker true now c).state = .closed ∧
      (updateCircuitBreaker true now c).failures = 0) ∧
    (∀ (c : CircuitBreaker) (now : ℕ), c.state = .halfOpen →
      (updateCircuitBreaker false now c).lastFailureTime = now ∧
      (updateCircuitBreaker false now c).failures = c.failures + 1 ∧
      ((updateCircuitBreaker false now c).state = .opened ↔ c.failures + 1 ≥ 5)) := by
  refine ⟨?_, ?_, ?_⟩
  · intro c now hstate hfail
    obtain ⟨s, f, l, t⟩ := c
    simp only at hstate hfail
    subst hstate hfail
    norm_num [updateCircuitBreaker]
  · intro c now hstate
    constructor
    · simp [updateCircuitBreaker, hstate]
    · simp [updateCircuitBreaker]
  · intro c now hstate
    by_cases h5 : c.failures + 1 ≥ 5
    · refine ⟨?_, ?_, ?_⟩ <;> simp [updateCircuitBreaker, h5]
    · refine ⟨?_, ?_, ?_⟩ <;> simp [updateCircuitBreaker, h5, hstate]

/-- C3 (witness): the transitions evaluated on concrete breakers. -/
theorem circuitBreaker_transitions_witness :
    (updateCircuitBreaker false 42 (updateCircuitBreaker false 42
      (updateCircuitBreaker false 42 (updateCircuitBreaker false 42
        (updateCircuitBreaker false 42 ⟨.closed, 0, 7, 30000⟩))))).state = .opened ∧
    (updateCircuitBreaker true 42 ⟨.halfOpen, 0, 0, 30000⟩).state = .closed ∧
    (updateCircuitBreaker false 42 ⟨.halfOpen, 0, 0, 30000⟩).lastFailureTime = 42 :=
  ⟨circuitBreaker_transitions.1 ⟨.closed, 0, 7, 30000⟩ 42 rfl rfl,
   (circuitBreaker_transitions.2.1 ⟨.halfOpen, 0, 0, 30000⟩ 42 rfl).1,
   (circuitBreaker_transitions.2.2 ⟨.halfOpen, 0, 0, 30000⟩ 42 rfl).1⟩

/-! ## C10 — frame of `resetAllAPIs` -/

/-- C10: `resetAllAPIs` touches only the `isActive` flag, the
consecutive-failure and error counters, and the breaker state and failure
counter; all other provider statistics, the health scores, the breaker
timestamps/timeouts and the adaptive flag are unchanged. -/
theorem resetAllAPIs_frame :
    ∀ (st : CheckerState) (n : String),
      ((resetAllAPIs st).apiStats n).totalRequests = (st.apiStats n).totalRequests ∧
      ((resetAllAPIs st).apiStats n).successfulRequests = (st.apiStats n).successfulRequests ∧
      ((resetAllAPIs st).apiStats n).failedRequests = (st.apiStats n).failedRequests ∧
      ((resetAllAPIs st).apiStats n).averageResponseTime = (st.apiStats n).averageResponseTime ∧
      ((resetAllAPIs st).apiStats n).lastRequestTime = (st.apiStats n).lastRequestTime ∧
      ((resetAllAPIs st).apiStats n).successStreak = (st.apiStats n).successStreak ∧
      ((resetAllAPIs st).apiStats n).lastError = (st.apiStats n).lastError ∧
      ((resetAllAPIs st).apiStats n).hourlyRequests = (st.apiStats n).hourlyRequests ∧
      ((resetAllAPIs st).apiStats n).dailyRequests = (st.apiStats n).dailyRequests ∧
      ((resetAllAPIs st).apiStats n).lastHourReset = (st.apiStats n).lastHourReset ∧
      ((resetAllAPIs st).apiStats n).lastDayReset = (st.apiStats n).lastDayReset ∧
      (resetAllAPIs st).apiHealthScore n = st.apiHealthScore n ∧
      ((resetAllAPIs st).circuitBreaker n).lastFailureTime =
        (st.circuitBreaker n).lastFailureTime ∧
      ((resetAllAPIs st).circuitBreaker n).timeout = (st.circuitBreaker n).timeout ∧
      (resetAllAPIs st).adaptiveRateLimit = st.adaptiveRateLimit ∧
      ((resetAllAPIs st).apiStats n).isActive = true ∧
      ((resetAllAPIs st).apiStats n).consecutiveFailures = 0 ∧
      ((resetAllAPIs st).apiStats n).errorCount = 0 ∧
      ((resetAllAPIs st).circuitBreaker n).state = .closed ∧
      ((resetAllAPIs st).circuitBreaker n).failures = 0 :=
  fun _ _ =>
    ⟨rfl, rfl, rfl, rfl, rfl, rfl, rfl, rfl, rfl, rfl, rfl, rfl, rfl, rfl, rfl,
     rfl, rfl, rfl, rfl, rfl⟩

/-! ## C4 — negative cache TTL -/

/-- C4: the source computes the negative TTL for a zero-balance result
(line 440) but stores the entry without it, and the read (line 410) compares
every entry against the 10-minute `cacheExpiry`; so a zero-balance result
cached at time 0 is still served from the cache at 121 s, although
121 s exceeds the 2-minute negative TTL the claim (and the computed
`chooseCacheExpiry` value) prescribe. -/
theorem negativeCache_ttl_ignored :
    zeroResult1.hasBalance = false ∧
    chooseCacheExpiry zeroResult1 = negativeCacheExpiry ∧
    cacheLookup (cacheStore [] "btc:addr1" zeroResult1 0) "btc:addr1" 60000 =
      some zeroResult1 ∧
    cacheLookup (cacheStore [] "btc:addr1" zeroResult1 0) "btc:addr1" 121000 =
      some zeroResult1 ∧
    121000 > negativeCacheExpiry := by decide

/-! ## C8 — expired cache reads -/

/-- C8 (counterexample): a read that finds an expired entry misses, but the
entry is still present in the cache afterwards — the claim says it is
removed. -/
theorem expired_entry_not_removed :
    (executeCacheCheck [("btc:addr1", ⟨zeroResult1, 0⟩)] "btc:addr1" 700000).1 = none ∧
    mapGet (executeCacheCheck [("btc:addr1", ⟨zeroResult1, 0⟩)] "btc:addr1" 700000).2
      "btc:addr1" = some ⟨zeroResult1, 0⟩ := by decide

/-- C8 (amended): the cache-check step of `executeBalanceCheck` treats an
expired entry as a miss but leaves the cache map unchanged; expired entries
are removed only by the periodic `cleanExpiredCache` sweep, whose output
contains no entry older than `cacheExpiry`. -/
theorem cacheRead_expired_is_miss_only :
    ∀ (cache : List (String × CacheEntry)) (key : String) (now : ℕ) (e : CacheEntry),
      mapGet cache key = some e →
      ¬ now - e.timestamp < cacheExpiry →
      (executeCacheCheck cache key now).1 = none ∧
      (executeCacheCheck cache key now).2 = cache ∧
      ∀ p ∈ cleanExpiredCache now cache, ¬ now - p.2.timestamp > cacheExpiry := by
  intro cache key now e hget hexp
  refine ⟨?_, rfl, ?_⟩
  · simp [executeCacheCheck, cacheLookup, hget, hexp]
  · intro p hp
    have hmem := List.mem_filter.mp hp
    simpa using hmem.2

/-- C8 (witness): the amended statement evaluated on a one-entry cache read
well past its expiry. -/
theorem cacheRead_expired_is_miss_only_witness :
    mapGet [("btc:addr2", ⟨zeroResult2, 0⟩)] "btc:addr2" = some ⟨zeroResult2, 0⟩ ∧
    ¬ (700000 : ℕ) - 0 < cacheExpiry ∧
    (executeCacheCheck [("btc:addr2", ⟨zeroResult2, 0⟩)] "btc:addr2" 700000).1 = none :=
  ⟨rfl, by decide,
   (cacheRead_expired_is_miss_only [("btc:addr2", ⟨zeroResult2, 0⟩)] "btc:addr2" 700000
     ⟨zeroResult2, 0⟩ rfl (by decide)).1⟩

/-! ## C5 — retry bound -/

/-- Against an always-failing executor, a request whose retry headroom is
`n` is attempted `n + 1` times and then rejected. -/
theorem runFailing_spec :
    ∀ (n retryBudget : ℕ) (request : QueuedRequest),
      retryBudget - request.retries = n →
      runFailing retryBudget request = (n + 1, .rejected "network error") := by
  intro n
  induction n with
  | zero =>
      intro retryBudget request h
      unfold runFailing
      rw [dif_neg (by omega)]
  | succ k ih =>
      intro retryBudget request h
      unfold runFailing
      rw [dif_pos (by omega)]
      rw [ih retryBudget { request with retries := request.retries + 1 }
        (by show retryBudget - (request.retries + 1) = k; omega)]

/-- C5: with a provider set failing every call, a freshly queued request is
executed exactly `retryAttempts + 1` times and then its promise is rejected;
each failed attempt with remaining retries re-queues the request, with its
counter bumped, at the front of the queue after a delay of
`baseDelay * 2 ^ retries` (the bumped counter). -/
theorem retry_bound :
    ∀ (retryBudget : ℕ) (addr : String) (t : ℕ),
      (runFailing retryBudget ⟨addr, 0, t⟩).1 = retryBudget + 1 ∧
      (runFailing retryBudget ⟨addr, 0, t⟩).2 = .rejected "network error" ∧
      (∀ request : QueuedRequest, request.retries < retryBudget →
        processRequest failingExec retryBudget request =
          .requeuedFront { request with retries := request.retries + 1 }
            (baseDelay * 2 ^ (request.retries + 1))) ∧
      (∀ (queue : List QueuedRequest) (request : QueuedRequest),
        request.retries < retryBudget →
        applyOutcome queue (processRequest failingExec retryBudget request) =
          { request with retries := request.retries + 1 } :: queue) := by
  intro retryBudget addr t
  have hrun := runFailing_spec retryBudget retryBudget ⟨addr, 0, t⟩ (by simp)
  refine ⟨by rw [hrun], by rw [hrun], ?_, ?_⟩
  · intro request hlt
    simp [processRequest, failingExec, hlt]
  · intro queue request hlt
    simp [processRequest, failingExec, hlt, applyOutcome]

/-- C5 (witness): with the source's `retryAttempts = 5`, an always-failing
request is attempted six times; a failed attempt with two used retries is
re-queued with counter three and delay `50 * 2 ^ 3 = 400` ms. -/
theorem retry_bound_witness :
    (runFailing retryAttempts ⟨"addr1", 0, 0⟩).1 = 6 ∧
    processRequest failingExec retryAttempts ⟨"addr1", 2, 0⟩ =
      .requeuedFront ⟨"addr1", 3, 0⟩ 400 := by
  refine ⟨(retry_bound retryAttempts "addr1" 0).1, ?_⟩
  have h := (retry_bound retryAttempts "addr1" 0).2.2.1 ⟨"addr1", 2, 0⟩ (by decide)
  simpa using h

/-! ## C7 — response parsing never propagates an error -/

/-- C7: `parseAPIResponse` is a total function of the raw body, the parser
identifier and the address; whenever the parsing attempt fails (a thrown
and caught field access, or the unknown-parser default case), the result
degrades to the zero-balance canonical result for the address instead of
propagating an error. -/
theorem parseAPIResponse_never_throws :
    ∀ (data : Json) (parser address : String),
      (parseAPIResponse data parser address).address = address ∧
      (parseAPIResponse data parser address).source = parser ∧
      (tryParse parser data address = none →
        parseAPIResponse data parser address =
          { address := address, confirmed := 0, unconfirmed := 0, total := 0,
            balanceInBTC := 0, hasBalance := false, type := "bitcoin",
            source := parser }) := by
  intro data parser address
  refine ⟨rfl, rfl, fun h => ?_⟩
  simp [parseAPIResponse, h]

/-- C7 (witness): an unknown parser identifier on a null body yields the
zero-balance canonical result. -/
theorem parseAPIResponse_never_throws_witness :
    tryParse "bogus" Json.null "addr1" = none ∧
    parseAPIResponse Json.null "bogus" "addr1" =
      { address := "addr1", confirmed := 0, unconfirmed := 0, total := 0,
        balanceInBTC := 0, hasBalance := false, type := "bitcoin",
        source := "bogus" } :=
  ⟨rfl, (parseAPIResponse_never_throws Json.null "bogus" "addr1").2.2 rfl⟩

/-! ## C9 — canonical result consistency -/

/-- C9: every result of `parseAPIResponse` satisfies
`hasBalance = (total > 0)` and `balanceInBTC = total / 100000000`, and a
parse failure yields `total = 0`, hence `hasBalance = false` — never a
spurious positive balance. -/
theorem parseAPIResponse_consistent :
    ∀ (data : Json) (parser address : String),
      (parseAPIResponse data parser address).hasBalance =
        decide ((parseAPIResponse data parser address).total > 0) ∧
      (parseAPIResponse data parser address).balanceInBTC =
        (parseAPIResponse data parser address).total / 100000000 ∧
      (tryParse parser data address = none →
        (parseAPIResponse data parser address).total = 0 ∧
        (parseAPIResponse data parser address).hasBalance = false) := by
  intro data parser address
  refine ⟨rfl, rfl, fun h => ?_⟩
  simp [parseAPIResponse, h]

/-- C9 (witness): the consistency equations evaluated on an empty object and
an unknown parser, whose parse attempt fails. -/
theorem parseAPIResponse_consistent_witness :
    tryParse "nope" (Json.obj []) "addr2" = none ∧
    (parseAPIResponse (Json.obj []) "nope" "addr2").total = 0 ∧
    (parseAPIResponse (Json.obj []) "nope" "addr2").hasBalance =
      decide ((parseAPIResponse (Json.obj []) "nope" "addr2").total > 0) :=
  ⟨rfl, ((parseAPIResponse_consistent (Json.obj []) "nope" "addr2").2.2 rfl).1,
   (parseAPIResponse_consistent (Json.obj []) "nope" "addr2").1⟩

/-! ## C2 — OPEN providers and selection -/

/-- C2 (counterexample): when no provider passes the availability filter,
the emergency fallback checks only the `isActive` flag, so `selectBestAPI`
returns the first active provider even though its circuit breaker is
`OPEN` — the claim says an `OPEN` provider is never returned. -/
theorem selectBestAPI_emergency_returns_open :
    (selectBestAPI allOpenState 0).1 = some blockstreamAPI ∧
    (allOpenState.circuitBreaker blockstreamAPI.name).state = .opened := by
  constructor
  · decide
  · rfl

/-- C2 (amended): on the primary path (some provider passes the
availability filter) the selected provider's breaker is never `OPEN`, and
after the last-resort reset every breaker is `CLOSED`; only the emergency
fallback can hand out a provider whose breaker is `OPEN`. -/
theorem selectBestAPI_primary_never_open :
    (∀ (st : CheckerState) (now : ℕ) (api : BitcoinAPI),
      bitcoinAPIs.filter (apiAvailable st now) ≠ [] →
      (selectBestAPI st now).1 = some api →
      (st.circuitBreaker api.name).state ≠ .opened) ∧
    (∀ (st : CheckerState) (n : String),
      ((resetAllAPIs st).circuitBreaker n).state = .closed) := by
  constructor
  · intro st now api hne hsel
    cases hfe : bitcoinAPIs.filter (apiAvailable st now) with
    | nil => exact absurd hfe hne
    | cons a rest =>
        have hsel' : selectTop st (a :: rest) = some api := by
          unfold selectBestAPI selectBestAPIWith at hsel
          rw [hfe] at hsel
          simpa using hsel
        have hmem : api ∈ a :: rest := selectTop_mem st (a :: rest) api hsel'
        have hmem' : api ∈ bitcoinAPIs.filter (apiAvailable st now) := by
          rw [hfe]; exact hmem
        exact apiAvailable_not_opened st now api (List.mem_filter.mp hmem').2
  · intro st n
    rfl

/-- C2 (witness): on a fully healthy state the primary path selects
Blockstream, whose breaker is not `OPEN`. -/
theorem selectBestAPI_primary_never_open_witness :
    bitcoinAPIs.filter (apiAvailable healthyState 1000000) ≠ [] ∧
    (selectBestAPI healthyState 1000000).1 = some blockstreamAPI ∧
    (healthyState.circuitBreaker blockstreamAPI.name).state ≠ .opened :=
  ⟨by decide, by decide,
   selectBestAPI_primary_never_open.1 healthyState 1000000 blockstreamAPI
     (by decide) (by decide)⟩

/-! ## C6 — selection fallback behaviour -/

/-- C6 (counterexample): with every provider below the health floor but
active, the degraded fallback returns the first provider in registry order
(Blockstream, with 100 recorded errors) even though another provider in the
degraded set (BlockCypher) has no errors — it is not the "least erroring"
provider that is returned. -/
theorem emergency_not_least_erroring :
    (selectBestAPI lowHealthState 0).1 = some blockstreamAPI ∧
    (lowHealthState.apiStats "Blockstream").errorCount = 100 ∧
    (lowHealthState.apiStats "BlockCypher").errorCount = 0 ∧
    (lowHealthState.apiStats "BlockCypher").isActive = true ∧
    blockcypherAPI ∈
      bitcoinAPIs.filter (fun api => (lowHealthState.apiStats api.name).isActive) := by
  decide

/-- C6 (amended): selection fails only on an empty registry; when no
provider passes the availability filter it returns the first provider in
registry order whose `isActive` flag is set (ignoring error counts,
throttling and breaker state); when no provider is active it resets the
breakers and the `isActive`/`consecutiveFailures`/`errorCount` fields and
returns the first (highest-priority) provider of the registry. -/
theorem selectBestAPI_fallback :
    (∀ (registry : List BitcoinAPI) (st : CheckerState) (now : ℕ),
      (selectBestAPIWith registry st now).1 = none ↔ registry = []) ∧
    (∀ (registry : List BitcoinAPI) (st : CheckerState) (now : ℕ)
        (e : BitcoinAPI) (rest : List BitcoinAPI),
      registry.filter (apiAvailable st now) = [] →
      registry.filter (fun api => (st.apiStats api.name).isActive) = e :: rest →
      selectBestAPIWith registry st now = (some e, st)) ∧
    (∀ (registry : List BitcoinAPI) (st : CheckerState) (now : ℕ),
      registry.filter (apiAvailable st now) = [] →
      registry.filter (fun api => (st.apiStats api.name).isActive) = [] →
      selectBestAPIWith registry st now = (registry.head?, resetAllAPIs st)) := by
  refine ⟨?_, ?_, ?_⟩
  · intro registry st now
    constructor
    · intro h
      cases hav : registry.filter (apiAvailable st now) with
      | nil =>
          cases he : registry.filter (fun api => (st.apiStats api.name).isActive) with
          | nil =>
              unfold selectBestAPIWith at h
              rw [hav, he] at h
              simpa [List.head?_eq_none_iff] using h
          | cons e rest =>
              unfold selectBestAPIWith at h
              rw [hav, he] at h
              simp at h
      | cons a rest =>
          unfold selectBestAPIWith at h
          rw [hav] at h
          simp [selectTop] at h
    · intro h
      subst h
      rfl
  · intro registry st now e rest hav he
    unfold selectBestAPIWith
    rw [hav, he]
    rfl
  · intro registry st now hav he
    unfold selectBestAPIWith
    rw [hav, he]
    rfl

/-- C6 (witness): on a state with every provider deactivated, selection
resets the state and returns the head of the registry. -/
theorem selectBestAPI_fallback_witness :
    bitcoinAPIs.filter (apiAvailable allInactiveState 0) = [] ∧
    bitcoinAPIs.filter (fun api => (allInactiveState.apiStats api.name).isActive) = [] ∧
    selectBestAPIWith bitcoinAPIs allInactiveState 0 =
      (bitcoinAPIs.head?, resetAllAPIs allInactiveState) :=
  ⟨by decide, by decide,
   selectBestAPI_fallback.2.2 bitcoinAPIs allInactiveState 0 (by decide) (by decide)⟩

/-! ## C1 — range coordinator -/

/-- The row produced by the availability query is a member of the queried
list. -/
theorem pickMinStart_mem (l : List WorkRow) (r : WorkRow)
    (h : pickMinStart l = some r) : r ∈ l := by
  cases l with
  | nil => simp [pickMinStart] at h
  | cons a rest =>
      simp only [pickMinStart, Option.some.injEq] at h
      have hg : ∀ x y : WorkRow,
          (if y.start_index < x.start_index then y else x) = x ∨
          (if y.start_index < x.start_index then y else x) = y := by
        intro x y
        split
        · exact Or.inr rfl
        · exact Or.inl rfl
      rcases foldl_choice_mem _ hg rest a with h2 | h2
      · rw [← h, h2]
        exact List.mem_cons_self _ _
      · rw [← h]
        exact List.mem_cons_of_mem _ h2

/-- The row returned by the first `SELECT` is a stored row with status
`available`. -/
theorem selectAvailable_spec (st : StoreState) (r : WorkRow)
    (h : selectAvailable st = some r) : r ∈ st.rows ∧ r.status = .available := by
  unfold selectAvailable at h
  have hmem := pickMinStart_mem _ r h
  have h2 := List.mem_filter.mp hmem
  refine ⟨h2.1, ?_⟩
  simpa using h2.2

/-- The running maximum of a fold over `max` dominates its seed. -/
theorem foldl_max_init_le (l : List WorkRow) (m : ℤ) :
    m ≤ l.foldl (fun acc x => max acc x.end_index) m := by
  induction l generalizing m with
  | nil => exact le_refl m
  | cons x l ih =>
      rw [List.foldl_cons]
      exact le_trans (le_max_left _ _) (ih _)

/-- The running maximum of a fold over `max` dominates every element. -/
theorem mem_le_foldl_max (l : List WorkRow) (m : ℤ) (w : WorkRow) (hw : w ∈ l) :
    w.end_index ≤ l.foldl (fun acc x => max acc x.end_index) m := by
  induction l generalizing m with
  | nil => cases hw
  | cons x l ih =>
      rw [List.foldl_cons]
      rcases List.mem_cons.mp hw with h | h
      · subst h
        exact le_trans (le_max_right _ _) (foldl_max_init_le _ _)
      · exact ih _ h

/-- Every stored row ends at or before the observed maximal `end_index`. -/
theorem end_le_maxEndList (l : List WorkRow) (w : WorkRow) (hw : w ∈ l) :
    w.end_index ≤ maxEndList l := by
  cases l with
  | nil => cases hw
  | cons r rs =>
      simp only [maxEndList]
      rcases List.mem_cons.mp hw with h | h
      · subst h
        exact foldl_max_init_le rs _
      · exact mem_le_foldl_max rs _ w h

/-- Every stored row ends at or before `maxEndIndex`. -/
theorem end_le_maxEndIndex (st : StoreState) (w : WorkRow) (hw : w ∈ st.rows) :
    w.end_index ≤ maxEndIndex st :=
  end_le_maxEndList st.rows w hw

/-- Interval disjointness is symmetric. -/
theorem intervalsDisjoint_symm {s1 e1 s2 e2 : ℤ}
    (h : intervalsDisjoint s1 e1 s2 e2) : intervalsDisjoint s2 e2 s1 e1 := by
  intro i hi
  exact h i ⟨hi.2.2.1, hi.2.2.2, hi.1, hi.2.1⟩

/-- Row disjointness is symmetric. -/
theorem rowsDisjoint_symm : Symmetric rowsDisjoint :=
  fun _ _ h => intervalsDisjoint_symm h

/-- Id distinctness of rows is symmetric. -/
theorem rowIdNe_symm : Symmetric (fun a b : WorkRow => a.id ≠ b.id) :=
  fun _ _ h => Ne.symm h

/-- Marking preserves the interval start. -/
theorem markRow_start (rowId : ℕ) (sid : String) (r : WorkRow) :
    (markRow rowId sid r).start_index = r.start_index := by
  unfold markRow
  split <;> rfl

/-- Marking preserves the interval end. -/
theorem markRow_end (rowId : ℕ) (sid : String) (r : WorkRow) :
    (markRow rowId sid r).end_index = r.end_index := by
  unfold markRow
  split <;> rfl

/-- Marking preserves the row id. -/
theorem markRow_id (rowId : ℕ) (sid : String) (r : WorkRow) :
    (markRow rowId sid r).id = r.id := by
  unfold markRow
  split <;> rfl

/-- Marking another row leaves a row unchanged. -/
theorem markRow_eq_self (rowId : ℕ) (sid : String) (r : WorkRow)
    (h : r.id ≠ rowId) : markRow rowId sid r = r := by
  unfold markRow
  rw [if_neg h]

/-- Marking the targeted row assigns it. -/
theorem markRow_self_status (sid : String) (r : WorkRow) :
    (markRow r.id sid r).status = .assigned := by
  unfold markRow
  rw [if_pos rfl]

/-- The `UPDATE` round trip preserves the store invariant. -/
theorem StoreInv_markAssigned {st : StoreState} (hinv : StoreInv st)
    (rowId : ℕ) (sid : String) : StoreInv (markAssigned st rowId sid) := by
  obtain ⟨hdisj, hids, hlt⟩ := hinv
  refine ⟨?_, ?_, ?_⟩
  · show (st.rows.map (markRow rowId sid)).Pairwise rowsDisjoint
    rw [List.pairwise_map]
    refine hdisj.imp ?_
    intro a b hab
    show rowsDisjoint (markRow rowId sid a) (markRow rowId sid b)
    unfold rowsDisjoint
    rw [markRow_start, markRow_end, markRow_start, markRow_end]
    exact hab
  · show (st.rows.map (markRow rowId sid)).Pairwise (fun a b => a.id ≠ b.id)
    rw [List.pairwise_map]
    refine hids.imp ?_
    intro a b hab
    show (markRow rowId sid a).id ≠ (markRow rowId sid b).id
    rw [markRow_id, markRow_id]
    exact hab
  · intro w hw
    obtain ⟨w', hw', rfl⟩ := List.mem_map.mp hw
    show (markRow rowId sid w').id < st.nextId
    rw [markRow_id]
    exact hlt w' hw'

/-- The `INSERT` round trip preserves the store invariant whenever the new
range starts past the maximal stored `end_index`. -/
theorem StoreInv_insertRange {st : StoreState} (hinv : StoreInv st)
    {s e : ℤ} (hs : maxEndIndex st < s) (sid : String) :
    StoreInv (insertRange st s e sid) := by
  obtain ⟨hdisj, hids, hlt⟩ := hinv
  refine ⟨?_, ?_, ?_⟩
  · show (st.rows ++ [(⟨st.nextId, s, e, .assigned, some sid⟩ : WorkRow)]).Pairwise
      rowsDisjoint
    rw [List.pairwise_append]
    refine ⟨hdisj, List.pairwise_singleton _ _, ?_⟩
    intro a ha b hb
    rw [List.mem_singleton] at hb
    subst hb
    have hae : a.end_index ≤ maxEndIndex st := end_le_maxEndIndex st a ha
    show intervalsDisjoint a.start_index a.end_index s e
    intro i hi
    omega
  · show (st.rows ++ [(⟨st.nextId, s, e, .assigned, some sid⟩ : WorkRow)]).Pairwise
      (fun a b => a.id ≠ b.id)
    rw [List.pairwise_append]
    refine ⟨hids, List.pairwise_singleton _ _, ?_⟩
    intro a ha b hb
    rw [List.mem_singleton] at hb
    subst hb
    show a.id ≠ st.nextId
    exact Nat.ne_of_lt (hlt a ha)
  · intro w hw
    have hw' : w ∈ st.rows ++ [(⟨st.nextId, s, e, .assigned, some sid⟩ : WorkRow)] := hw
    rw [List.mem_append] at hw'
    show w.id < st.nextId + 1
    rcases hw' with h | h
    · exact Nat.lt_succ_of_lt (hlt w h)
    · rw [List.mem_singleton] at h
      subst h
      exact Nat.lt_succ_self _

/-- A sequential `getNextWorkRange` call that finds an available row returns
that row's interval and marks it. -/
theorem getNextWorkRange_avail (sid : String) (bs : ℕ) (st : StoreState)
    (row : WorkRow) (h : selectAvailable st = some row) :
    getNextWorkRange sid bs st =
      (⟨row.start_index, row.end_index⟩, markAssigned st row.id sid) := by
  unfold getNextWorkRange observeNextRange
  rw [h]
  rfl

/-- A sequential `getNextWorkRange` call that finds no available row inserts
and returns the next contiguous range past the maximal `end_index`. -/
theorem getNextWorkRange_fresh (sid : String) (bs : ℕ) (st : StoreState)
    (h : selectAvailable st = none) :
    getNextWorkRange sid bs st =
      (⟨maxEndIndex st + 1, maxEndIndex st + 1 + (bs : ℤ) - 1⟩,
       insertRange st (maxEndIndex st + 1) (maxEndIndex st + 1 + (bs : ℤ) - 1) sid) := by
  unfold getNextWorkRange observeNextRange
  rw [h]
  rfl

/-- Unfolding one sequential call. -/
theorem runSequential_cons (sid : String) (bs : ℕ) (calls : List (String × ℕ))
    (st : StoreState) :
    runSequential st ((sid, bs) :: calls) =
      ((getNextWorkRange sid bs st).1 ::
         (runSequential (getNextWorkRange sid bs st).2 calls).1,
       (runSequential (getNextWorkRange sid bs st).2 calls).2) := rfl

/-- Sequential runs preserve the store invariant, return ranges disjoint
from every already-assigned row, and return pairwise disjoint ranges. -/
theorem runSequential_spec :
    ∀ (calls : List (String × ℕ)) (st : StoreState), StoreInv st →
      StoreInv (runSequential st calls).2 ∧
      (∀ w ∈ st.rows, w.status = .assigned →
        ∀ r ∈ (runSequential st calls).1,
          intervalsDisjoint w.start_index w.end_index r.start r.stop) ∧
      (runSequential st calls).1.Pairwise rangesDisjoint := by
  intro calls
  induction calls with
  | nil =>
      intro st hinv
      refine ⟨hinv, ?_, List.Pairwise.nil⟩
      intro w _ _ r hr
      simp [runSequential] at hr
  | cons call calls ih =>
      obtain ⟨sid, bs⟩ := call
      intro st hinv
      rw [runSequential_cons]
      cases hsel : selectAvailable st with
      | some row =>
          have hrmem := (selectAvailable_spec st row hsel).1
          have hrav := (selectAvailable_spec st row hsel).2
          rw [getNextWorkRange_avail sid bs st row hsel]
          have hinv1 := StoreInv_markAssigned hinv row.id sid
          obtain ⟨ihInv, ihAssigned, ihPairwise⟩ := ih (markAssigned st row.id sid) hinv1
          have hmarkmem : markRow row.id sid row ∈ (markAssigned st row.id sid).rows :=
            List.mem_map_of_mem _ hrmem
          refine ⟨ihInv, ?_, ?_⟩
          · intro w hw hwst r hr
            have hne : w ≠ row := by
              intro heq
              have h1 : row.status = .assigned := heq ▸ hwst
              rw [hrav] at h1
              cases h1
            rcases List.mem_cons.mp hr with hr0 | hr1
            · subst hr0
              exact List.Pairwise.forall rowsDisjoint_symm hinv.1 hw hrmem hne
            · have hwid : w.id ≠ row.id :=
                List.Pairwise.forall rowIdNe_symm hinv.2.1 hw hrmem hne
              have hwmem1 : w ∈ (markAssigned st row.id sid).rows := by
                have h2 := List.mem_map_of_mem (markRow row.id sid) hw
                rw [markRow_eq_self _ _ _ hwid] at h2
                exact h2
              exact ihAssigned w hwmem1 hwst r hr1
          · rw [List.pairwise_cons]
            refine ⟨?_, ihPairwise⟩
            intro r hr
            have h3 := ihAssigned (markRow row.id sid row) hmarkmem
              (markRow_self_status sid row) r hr
            rw [markRow_start, markRow_end] at h3
            exact h3
      | none =>
          rw [getNextWorkRange_fresh sid bs st hsel]
          have hinv1 : StoreInv (insertRange st (maxEndIndex st + 1)
              (maxEndIndex st + 1 + (bs : ℤ) - 1) sid) :=
            StoreInv_insertRange hinv (by omega) sid
          obtain ⟨ihInv, ihAssigned, ihPairwise⟩ := ih _ hinv1
          have hnewmem : (⟨st.nextId, maxEndIndex st + 1,
              maxEndIndex st + 1 + (bs : ℤ) - 1, .assigned, some sid⟩ : WorkRow) ∈
              (insertRange st (maxEndIndex st + 1)
                (maxEndIndex st + 1 + (bs : ℤ) - 1) sid).rows := by
            show _ ∈ st.rows ++ [_]
            exact List.mem_append_right _ (List.mem_singleton_self _)
          refine ⟨ihInv, ?_, ?_⟩
          · intro w hw hwst r hr
            rcases List.mem_cons.mp hr with hr0 | hr1
            · subst hr0
              have hae : w.end_index ≤ maxEndIndex st := end_le_maxEndIndex st w hw
              show intervalsDisjoint w.start_index w.end_index
                (maxEndIndex st + 1) (maxEndIndex st + 1 + (bs : ℤ) - 1)
              intro i hi
              omega
            · have hwmem1 : w ∈ (insertRange st (maxEndIndex st + 1)
                  (maxEndIndex st + 1 + (bs : ℤ) - 1) sid).rows :=
                List.mem_append_left _ hw
              exact ihAssigned w hwmem1 hwst r hr1
          · rw [List.pairwise_cons]
            refine ⟨?_, ihPairwise⟩
            intro r hr
            exact ihAssigned _ hnewmem rfl r hr

/-- C1 (amended): while the coordination store is reachable, ranges handed
out by a sequence of non-interleaved `getNextWorkRange` calls over a
well-formed store are pairwise disjoint.  (The atomicity half of the claim
fails: see the concurrency counterexample.) -/
theorem getNextWorkRange_sequential_disjoint (st : StoreState)
    (calls : List (String × ℕ)) (hinv : StoreInv st) :
    (runSequential st calls).1.Pairwise rangesDisjoint :=
  (runSequential_spec calls st hinv).2.2

/-- C1 (witness): two sequential calls of two workers against an initially
empty store receive disjoint ranges. -/
theorem getNextWorkRange_sequential_disjoint_witness :
    StoreInv emptyStore ∧
    (runSequential emptyStore [("workerA", 10), ("workerB", 10)]).1.Pairwise
      rangesDisjoint :=
  have hinv : StoreInv emptyStore :=
    ⟨List.Pairwise.nil, List.Pairwise.nil, fun w hw => absurd hw (List.not_mem_nil w)⟩
  ⟨hinv, getNextWorkRange_sequential_disjoint emptyStore [("workerA", 10), ("workerB", 10)] hinv⟩

/-- C1 (counterexample): the max-read-then-insert is two separate store
round trips, not one atomic step, so two concurrent callers whose read
phases both happen before either write phase are handed the identical —
overlapping — range `[1, 1000000]`. -/
theorem getNextWorkRange_concurrent_overlap :
    (commitNextRange "workerA" 1000000 (observeNextRange emptyStore) emptyStore).1 =
      ⟨1, 1000000⟩ ∧
    (commitNextRange "workerB" 1000000 (observeNextRange emptyStore)
        (commitNextRange "workerA" 1000000 (observeNextRange emptyStore) emptyStore).2).1 =
      ⟨1, 1000000⟩ ∧
    ¬ rangesDisjoint ⟨1, 1000000⟩ ⟨1, 1000000⟩ := by
  refine ⟨by decide, by decide, ?_⟩
  intro h
  exact h 1 (by decide)

end Web3Wallet
